import Mathlib

/-!
Shallow embedding of `dao-pre-propose-base/src/execute.rs` (the pre-propose
gating/deposit/hook contract of the dao-contracts repository).

Addresses are strings; `Uint128` amounts are `Nat`; the key-value store is
embedded as explicit fields of a `ContractState` record, with the per-proposal
deposit map as an association list.  External collaborators (the voting-power
oracle, the next-proposal-id query) are passed in as explicit arguments, the
way `deps.querier` supplies them in the source.  Fallible entry points return
`Except PreProposeError`; an error result models the host's all-or-nothing
rollback, so state is only produced on success.

Types from sibling crates that are not part of the provided sources
(`dao_voting`, `cw_denom`, the helpers module) are modelled from the spec,
each marked `Modelled from the spec:` in its doc comment.
-/

namespace DaoPreProposeBase

abbrev Addr := String

/-- Denomination from the `cw_denom` crate: a native bank denom or a cw20
token contract address. -/
inductive CheckedDenom where
  | Native (denom : String)
  | Cw20 (addr : Addr)
deriving DecidableEq, Repr

/-- Unchecked denomination, validated into a `CheckedDenom`. -/
inductive UncheckedDenom where
  | Native (denom : String)
  | Cw20 (addr : String)
deriving DecidableEq, Repr

/-- Deposit refund policy from `dao_voting::deposit`. -/
inductive DepositRefundPolicy where
  | Always
  | OnlyPassed
  | Never
deriving DecidableEq, Repr

/-- Checked deposit info from `dao_voting::deposit`: denomination, required
amount, refund policy. -/
structure CheckedDepositInfo where
  denom : CheckedDenom
  amount : Nat
  refund_policy : DepositRefundPolicy
deriving DecidableEq, Repr

/-- Submission policy from `dao_voting::pre_propose`. -/
inductive PreProposeSubmissionPolicy where
  | Anyone (denylist : List Addr)
  | Specific (dao_members : Bool) (allowlist : List Addr) (denylist : List Addr)
deriving DecidableEq, Repr

/-- Proposal status from `dao_voting::status` (the `VetoTimelock` variant's
expiration payload is irrelevant to this module and omitted). -/
inductive Status where
  | Open
  | Rejected
  | Passed
  | Executed
  | Closed
  | ExecutionFailed
  | Vetoed
  | VetoTimelock
deriving DecidableEq, Repr

/-- Submission-policy errors from `dao_voting::pre_propose`. -/
inductive PreProposeSubmissionPolicyError where
  | Unauthorized
  | AnyoneInvalidUpdateFields
  | NoOneCanPropose
deriving DecidableEq, Repr

/-- Error enum of the pre-propose base contract (`error.rs` is not among the
provided sources; variants are taken from their uses in `execute.rs`, with
`Std` and `Deposit` carrying their message as a string). -/
inductive PreProposeError where
  | NotDao
  | NotModule
  | NotCompleted (status : Status)
  | SubmissionPolicy (err : PreProposeSubmissionPolicyError)
  | CannotMigrateVersion (required : String) (actual : String)
  | NoWithdrawalDenom
  | NothingToWithdraw
  | Std (msg : String)
  | Deposit (msg : String)
deriving DecidableEq, Repr

/-- Outbound cosmos messages, restricted to the shapes this contract emits:
wasm-execute messages (proposal creation, hook notifications, cw20
transfers are all `WasmMsg::Execute`; we keep the payload as an abstract
serialized string and give transfer payloads dedicated constructors to keep
recipients visible) and native bank sends. -/
inductive OutMsg where
  | Execute (contract_addr : Addr) (msg : String)
  | BankSend (to_address : Addr) (denom : String) (amount : Nat)
  | Cw20Transfer (token : Addr) (recipient : Addr) (amount : Nat)
  | Cw20TransferFrom (token : Addr) (owner : Addr) (recipient : Addr) (amount : Nat)
deriving DecidableEq, Repr

/-- Config singleton stored by the contract (`state.rs`). -/
structure Config where
  deposit_info : Option CheckedDepositInfo
  submission_policy : PreProposeSubmissionPolicy
deriving DecidableEq, Repr

/-- Association-list lookup, embedding `Map::may_load` from cw-storage-plus. -/
def mapLoad {V : Type} (m : List (Nat × V)) (k : Nat) : Option V :=
  (m.find? (fun p => p.1 == k)).map (fun p => p.2)

/-- Association-list store, embedding `Map::save` from cw-storage-plus:
unconditional insert-or-overwrite. -/
def mapSave {V : Type} (m : List (Nat × V)) (k : Nat) (v : V) : List (Nat × V) :=
  (k, v) :: m.filter (fun p => p.1 != k)

/-- The contract's persistent state: the `Item`s and `Map` of
`PreProposeContract` in `state.rs`, plus the cw2 contract-version string. -/
structure ContractState where
  proposal_module : Addr
  dao : Addr
  config : Config
  deposits : List (Nat × (Option CheckedDepositInfo × Addr))
  proposal_submitted_hooks : List Addr
  contract_version : String
deriving DecidableEq, Repr

/-- Sender and attached native funds of an inbound message
(`cosmwasm_std::MessageInfo`); funds are (denom, amount) pairs. -/
structure MessageInfo where
  sender : Addr
  funds : List (String × Nat)
deriving DecidableEq, Repr

/-- The contract's own address (`env.contract.address`). -/
structure Env where
  contract_address : Addr
deriving DecidableEq, Repr

/-- Voting-power oracle: the `VotingPowerAtHeight` smart query against the
DAO.  A `Except.error` result models a `StdError` from the querier, which
`check_can_submit` propagates as `PreProposeError::Std`. -/
abbrev VotingPowerOracle := Addr → Except String Nat

/-- Direct translation of `check_can_submit` (execute.rs lines 454-498):
`Anyone` authorizes unless denylisted; `Specific` checks denylist first,
then allowlist, then (when `dao_members`) strictly positive voting power;
every fall-through is the `Unauthorized` submission-policy error. -/
def check_can_submit (st : ContractState) (votingPower : VotingPowerOracle)
    (who : Addr) : Except PreProposeError Unit :=
  match st.config.submission_policy with
  | .Anyone denylist =>
      if !(denylist.contains who) then
        .ok ()
      else
        .error (.SubmissionPolicy .Unauthorized)
  | .Specific dao_members allowlist denylist =>
      if !(denylist.contains who) then
        if allowlist.contains who then
          .ok ()
        else if dao_members then
          match votingPower who with
          | .error e => .error (.Std e)
          | .ok power =>
              if power != 0 then
                .ok ()
              else
                .error (.SubmissionPolicy .Unauthorized)
        else
          .error (.SubmissionPolicy .Unauthorized)
      else
        .error (.SubmissionPolicy .Unauthorized)

/-- Translation of the `CanPropose` branch of `query` (execute.rs lines
517-532): `Ok` becomes `true`, the `Unauthorized` submission-policy error
becomes `false`, a `Std` error is propagated verbatim, and any other error
is re-raised as a generic `StdError`.  The query returns `StdResult`, so the
error type is the `StdError` message string. -/
def query_can_propose (st : ContractState) (votingPower : VotingPowerOracle)
    (address : Addr) : Except String Bool :=
  match check_can_submit st votingPower address with
  | .ok _ => .ok true
  | .error err =>
      match err with
      | .SubmissionPolicy .Unauthorized => .ok false
      | .Std e => .error e
      | _ => .error "unexpected error"

/-- Modelled from the spec: `CheckedDepositInfo::get_return_deposit_message`
from `dao_voting::deposit` (not among the provided sources).  Per spec
section 4.2: constructs a single transfer message to the decided recipient
for the full deposited amount; zero-amount deposits produce no message.
Native denoms transfer by bank send, cw20 denoms by a cw20 transfer. -/
def CheckedDepositInfo.get_return_deposit_message (info : CheckedDepositInfo)
    (receiver : Addr) : List OutMsg :=
  if info.amount = 0 then
    []
  else
    match info.denom with
    | .Native denom => [.BankSend receiver denom info.amount]
    | .Cw20 token => [.Cw20Transfer token receiver info.amount]

/-- Modelled from the spec: `CheckedDepositInfo::check_native_deposit_paid`
from `dao_voting::deposit` (not among the provided sources).  Per spec
section 4.2: for a native denomination, the funds sent with the message
must exactly cover the required amount (wrong denom or amount is a deposit
error); cw20 deposits are not paid with native funds, so nothing is
checked. -/
def CheckedDepositInfo.check_native_deposit_paid (info : CheckedDepositInfo)
    (info_msg : MessageInfo) : Except PreProposeError Unit :=
  match info.denom with
  | .Native denom =>
      let paid := (info_msg.funds.filter (fun c => c.1 == denom)).foldl
        (fun acc c => acc + c.2) 0
      if paid == info.amount then
        .ok ()
      else
        .error (.Deposit "invalid native deposit amount")
  | .Cw20 _ => .ok ()

/-- Modelled from the spec: `CheckedDepositInfo::get_take_deposit_messages`
from `dao_voting::deposit` (not among the provided sources).  Per spec
section 4.2: native deposits arrive with the submit message itself, so no
message is needed; token-style (cw20) deposits are pulled from the proposer
to the contract with a transfer-from message; a zero amount produces no
message. -/
def CheckedDepositInfo.get_take_deposit_messages (info : CheckedDepositInfo)
    (proposer : Addr) (contract : Addr) : List OutMsg :=
  if info.amount = 0 then
    []
  else
    match info.denom with
    | .Native _ => []
    | .Cw20 token => [.Cw20TransferFrom token proposer contract info.amount]

/-- Direct translation of `execute_propose` (execute.rs lines 131-190).
The next-proposal-id query against the proposal module is passed in as
`next_id`.  The proposal message payload is kept as its serialized form
`msg`.  On success the deposit record is saved under `next_id` in the
returned state, and the outbound batch is the propose message, then one
hook message per subscriber in registration order, then the deposit
take messages — the order of the `add_message`/`add_submessages`/
`add_messages` calls on the response. -/
def execute_propose (st : ContractState) (votingPower : VotingPowerOracle)
    (next_id : Nat) (env : Env) (info : MessageInfo) (msg : String) :
    Except PreProposeError (ContractState × List OutMsg) := do
  (check_can_submit st votingPower info.sender).map (fun _ => ())
  let config := st.config
  let deposit_messages ←
    match config.deposit_info with
    | some deposit_info => do
        deposit_info.check_native_deposit_paid info
        pure (deposit_info.get_take_deposit_messages info.sender env.contract_address)
    | none => pure []
  let proposal_module := st.proposal_module
  let st' : ContractState :=
    { st with deposits := mapSave st.deposits next_id (config.deposit_info, info.sender) }
  let propose_messsage := OutMsg.Execute proposal_module msg
  let hooks_msgs := st.proposal_submitted_hooks.map (fun a => OutMsg.Execute a msg)
  .ok (st', propose_messsage :: (hooks_msgs ++ deposit_messages))

/-- Direct translation of `execute_proposal_completed_hook` (execute.rs
lines 385-452): only the proposal module may call it; only the terminal
statuses `Closed`, `Executed`, `Vetoed` are accepted; a missing deposit
record is a benign no-op; otherwise the refund-policy/status match decides
whether the deposit returns to the proposer or to the DAO.  The Rust
handler receives `deps: Deps` (read-only), so it returns only messages and
can never touch state. -/
def execute_proposal_completed_hook (st : ContractState) (info : MessageInfo)
    (id : Nat) (new_status : Status) : Except PreProposeError (List OutMsg) :=
  if info.sender != st.proposal_module then
    .error .NotModule
  else if new_status != Status.Closed && new_status != Status.Executed
      && new_status != Status.Vetoed then
    .error (.NotCompleted new_status)
  else
    match mapLoad st.deposits id with
    | some (deposit_info, proposer) =>
        match deposit_info with
        | some di =>
            let should_refund_to_proposer :=
              match new_status, di.refund_policy with
              | Status.Executed, DepositRefundPolicy.OnlyPassed => true
              | _, DepositRefundPolicy.OnlyPassed => false
              | _, DepositRefundPolicy.Always => true
              | _, DepositRefundPolicy.Never => false
            if should_refund_to_proposer then
              .ok (di.get_return_deposit_message proposer)
            else
              .ok (di.get_return_deposit_message st.dao)
        | none => .ok []
    | none => .ok []

/-- The `ExecuteMsg::ProposalCompletedHook` dispatch step: `execute` calls
the handler with `deps.as_ref()` (execute.rs line 125), a read-only view,
so the post-state of a successful hook invocation is the pre-state
unchanged. -/
def completed_hook_step (st : ContractState) (info : MessageInfo) (id : Nat)
    (new_status : Status) : Except PreProposeError (ContractState × List OutMsg) :=
  (execute_proposal_completed_hook st info id new_status).map (fun msgs => (st, msgs))

/-- The spec's refund decision table (section 4.2), written from the spec's
words for comparison with the hook: `Always` refunds the proposer for every
terminal status, `OnlyPassed` refunds the proposer only on `Executed` and
otherwise pays the DAO, `Never` always pays the DAO. -/
def refundTableRecipient (policy : DepositRefundPolicy) (status : Status)
    (proposer : Addr) (dao : Addr) : Addr :=
  match policy with
  | .Always => proposer
  | .OnlyPassed => if status = Status.Executed then proposer else dao
  | .Never => dao

/-- Modelled from the spec: `UncheckedDepositInfo` from
`dao_voting::deposit` (not among the provided sources): the unvalidated
deposit configuration carried by `Instantiate` and `UpdateConfig`. -/
structure UncheckedDepositInfo where
  denom : UncheckedDenom
  amount : Nat
  refund_policy : DepositRefundPolicy
deriving DecidableEq, Repr

/-- Modelled from the spec: `UncheckedDenom::into_checked` from `cw_denom`
(not among the provided sources): validates the denomination reference.
Address validation is out of scope of the embedding, so both variants
check successfully. -/
def UncheckedDenom.into_checked (d : UncheckedDenom) :
    Except PreProposeError CheckedDenom :=
  match d with
  | .Native denom => .ok (.Native denom)
  | .Cw20 addr => .ok (.Cw20 addr)

/-- Modelled from the spec: `UncheckedDepositInfo::into_checked` from
`dao_voting::deposit` (not among the provided sources).  Per spec section
3, a `CheckedDepositInfo` has `amount > 0`, validated when constructed via
`into_checked`; a zero amount is a deposit error. -/
def UncheckedDepositInfo.into_checked (u : UncheckedDepositInfo)
    (_dao : Addr) : Except PreProposeError CheckedDepositInfo :=
  if u.amount = 0 then
    .error (.Deposit "zero deposit")
  else
    (u.denom.into_checked).map (fun denom =>
      { denom := denom, amount := u.amount, refund_policy := u.refund_policy })

/-- Modelled from the spec: `PreProposeSubmissionPolicy::validate` from
`dao_voting::pre_propose` (not among the provided sources).  Per spec
sections 3 and 4.1, a policy must have no self-contradictory flags before
being stored; modelled as rejecting a `Specific` policy under which no
address could ever be authorized (`dao_members` false with an empty
allowlist). -/
def PreProposeSubmissionPolicy.validate (p : PreProposeSubmissionPolicy) :
    Except PreProposeError Unit :=
  match p with
  | .Anyone _ => .ok ()
  | .Specific dao_members allowlist _ =>
      if dao_members || !allowlist.isEmpty then
        .ok ()
      else
        .error (.SubmissionPolicy .NoOneCanPropose)

/-- Modelled from the spec: `add_and_remove_addresses` from the contract's
helpers module (not among the provided sources).  Per spec section 4.1:
add and remove operate on deduplicated sets, remove is a no-op for absent
addresses, and add rejects addresses already present (explicit duplicate
detection). -/
def add_and_remove_addresses (current : List Addr) (add : Option (List Addr))
    (remove : Option (List Addr)) : Except PreProposeError (List Addr) := do
  let added ← (add.getD []).foldlM
    (fun (acc : List Addr) a =>
      if acc.contains a then
        .error (.Std "address already present")
      else
        .ok (acc ++ [a]))
    current
  .ok (added.filter (fun a => !((remove.getD []).contains a)))

/-- Direct translation of `execute_update_config` (execute.rs lines
192-229): DAO-only; the `deposit_info` argument is checked and stored as
given (so `none` clears any stored deposit requirement), while a `none`
`submission_policy` keeps the previous policy; a provided policy must
validate. -/
def execute_update_config (st : ContractState) (info : MessageInfo)
    (deposit_info : Option UncheckedDepositInfo)
    (submission_policy : Option PreProposeSubmissionPolicy) :
    Except PreProposeError (ContractState × List OutMsg) := do
  let dao := st.dao
  if info.sender != dao then
    .error .NotDao
  else do
    let checked_deposit_info ←
      match deposit_info with
      | some d => (d.into_checked dao).map (fun c => some c)
      | none => pure none
    (match submission_policy with
     | some p => p.validate
     | none => pure ())
    let new_submission_policy :=
      match submission_policy with
      | some p => p
      | none => st.config.submission_policy
    let st' : ContractState :=
      { st with config :=
          { deposit_info := checked_deposit_info
            submission_policy := new_submission_policy } }
    .ok (st', [])

/-- Direct translation of `execute_update_submission_policy` (execute.rs
lines 231-308): DAO-only; with an `Anyone` policy any `Specific`-only
field present is the `AnyoneInvalidUpdateFields` error before anything is
written; otherwise the add/remove lists are applied to the matching sets,
`set_dao_members` overrides the flag for `Specific`, and the mutated
policy must re-validate before being saved. -/
def execute_update_submission_policy (st : ContractState) (info : MessageInfo)
    (denylist_add : Option (List Addr)) (denylist_remove : Option (List Addr))
    (set_dao_members : Option Bool) (allowlist_add : Option (List Addr))
    (allowlist_remove : Option (List Addr)) :
    Except PreProposeError (ContractState × List OutMsg) := do
  let dao := st.dao
  if info.sender != dao then
    .error .NotDao
  else do
    let new_policy ←
      match st.config.submission_policy with
      | .Anyone denylist =>
          if set_dao_members.isSome || allowlist_add.isSome
              || allowlist_remove.isSome then
            .error (.SubmissionPolicy .AnyoneInvalidUpdateFields)
          else do
            let denylist ← add_and_remove_addresses denylist denylist_add denylist_remove
            .ok (PreProposeSubmissionPolicy.Anyone denylist)
      | .Specific dao_members allowlist denylist => do
          let dao_members :=
            match set_dao_members with
            | some new_dao_members => new_dao_members
            | none => dao_members
          let allowlist ← add_and_remove_addresses allowlist allowlist_add allowlist_remove
          let denylist ← add_and_remove_addresses denylist denylist_add denylist_remove
          .ok (PreProposeSubmissionPolicy.Specific dao_members allowlist denylist)
    new_policy.validate
    let st' : ContractState :=
      { st with config := { st.config with submission_policy := new_policy } }
    .ok (st', [])

/-- The spec's authorization rule (section 4.1), written from the spec's
words for comparison with `check_can_submit`: `Anyone` authorizes unless
denylisted; `Specific` makes denylist membership decisive, then allowlist
membership authorizes, then `dao_members` defers to positive voting power,
otherwise unauthorized. -/
def authorizedSpec (policy : PreProposeSubmissionPolicy) (power : Addr → Nat)
    (who : Addr) : Bool :=
  match policy with
  | .Anyone denylist => !(denylist.contains who)
  | .Specific dao_members allowlist denylist =>
      if denylist.contains who then
        false
      else if allowlist.contains who then
        true
      else if dao_members then
        decide (0 < power who)
      else
        false

/-- A parsed semantic version as the `semver` crate represents it: release
triple plus the prerelease identifier list (empty for a release version).
Build metadata does not participate in ordering or matching and is
dropped at parse time. -/
structure SemVersion where
  major : Nat
  minor : Nat
  patch : Nat
  pre : List String
deriving DecidableEq, Repr

/-- Split a character list on every occurrence of a separator. -/
def splitChar (sep : Char) : List Char → List (List Char)
  | [] => [[]]
  | c :: cs =>
      let r := splitChar sep cs
      if c == sep then
        [] :: r
      else
        match r with
        | [] => [[c]]
        | x :: xs => (c :: x) :: xs

/-- Split a character list at the first occurrence of a separator, keeping
the remainder (which may itself contain the separator) whole. -/
def splitFirstChar (sep : Char) : List Char → List Char × Option (List Char)
  | [] => ([], none)
  | c :: cs =>
      if c == sep then
        ([], some cs)
      else
        let r := splitFirstChar sep cs
        (c :: r.1, r.2)

/-- Decimal value of a digit sequence. -/
def digitsToNat (cs : List Char) : Nat :=
  cs.foldl (fun acc c => acc * 10 + (c.toNat - '0'.toNat)) 0

/-- A semver numeric identifier: nonempty digits with no leading zeros. -/
def isNumericIdent : List Char → Bool
  | [] => false
  | c :: cs => (c :: cs).all Char.isDigit && (c != '0' || cs.isEmpty)

/-- Characters allowed in prerelease and build identifiers. -/
def isIdentChar (c : Char) : Bool :=
  c.isAlphanum || c == '-'

/-- A semver prerelease identifier: nonempty, alphanumeric-or-hyphen, and
when purely numeric it must have no leading zeros. -/
def isValidPreIdent : List Char → Bool
  | [] => false
  | c :: cs =>
      (c :: cs).all isIdentChar
        && (!((c :: cs).all Char.isDigit) || c != '0' || cs.isEmpty)

/-- A semver build identifier: nonempty, alphanumeric-or-hyphen. -/
def isValidBuildIdent : List Char → Bool
  | [] => false
  | c :: cs => (c :: cs).all isIdentChar

/-- Parse a `major.minor.patch` version core: exactly three numeric
identifiers. -/
def parseCore (cs : List Char) : Option (Nat × Nat × Nat) :=
  match splitChar '.' cs with
  | [a, b, c] =>
      if isNumericIdent a && isNumericIdent b && isNumericIdent c then
        some (digitsToNat a, digitsToNat b, digitsToNat c)
      else
        none
  | _ => none

/-- Parse of a full semantic version string, embedding `Version::parse`
from the `semver` crate: `major.minor.patch`, an optional `-` prerelease
(dot-separated valid identifiers), an optional `+` build suffix
(validated, then dropped). -/
def parseSemVersion (s : String) : Option SemVersion :=
  let (beforeBuild, build) := splitFirstChar '+' s.data
  let buildOk :=
    match build with
    | none => true
    | some b => (splitChar '.' b).all isValidBuildIdent
  if !buildOk then
    none
  else
    let (core, pre) := splitFirstChar '-' beforeBuild
    match pre with
    | none =>
        (parseCore core).map (fun t => ⟨t.1, t.2.1, t.2.2, []⟩)
    | some p =>
        let preIds := splitChar '.' p
        if preIds.all isValidPreIdent then
          (parseCore core).map
            (fun t => ⟨t.1, t.2.1, t.2.2, preIds.map (fun l => String.mk l)⟩)
        else
          none

/-- Strict lexicographic order on release triples. -/
def tripleLt (a b : Nat × Nat × Nat) : Bool :=
  Nat.blt a.1 b.1
    || (Nat.beq a.1 b.1
      && (Nat.blt a.2.1 b.2.1
        || (Nat.beq a.2.1 b.2.1 && Nat.blt a.2.2 b.2.2)))

/-- Matching of the fixed requirement string in `migrate` — semver range
greater-equal 2.4.1 and less-than 2.5.0 — embedding `VersionReq::matches`
from the `semver` crate for that requirement: neither comparator carries a
prerelease, so a version with a prerelease never matches; a release
version matches when its triple lies in the half-open interval. -/
def reqMatchesUnderV250 (v : SemVersion) : Bool :=
  v.pre.isEmpty
    && !(tripleLt (v.major, v.minor, v.patch) (2, 4, 1))
    && tripleLt (v.major, v.minor, v.patch) (2, 5, 0)

/-- Legacy denomination shape read by the migration (declared inline in
`migrate`, execute.rs lines 590-596). -/
inductive CheckedDenomV241 where
  | Native (denom : String)
  | Cw20 (addr : Addr)
deriving DecidableEq, Repr

/-- Legacy refund-policy shape read by the migration (execute.rs lines
576-584). -/
inductive DepositRefundPolicyV241 where
  | Always
  | OnlyPassed
  | Never
deriving DecidableEq, Repr

/-- Legacy deposit-info shape read by the migration (execute.rs lines
562-574). -/
structure CheckedDepositInfoV241 where
  denom : CheckedDenomV241
  amount : Nat
  refund_policy : DepositRefundPolicyV241
deriving DecidableEq, Repr

/-- Legacy config shape read by the migration (execute.rs lines 547-556):
deposit info plus the single `open_proposal_submission` boolean. -/
structure ConfigV241 where
  deposit_info : Option CheckedDepositInfoV241
  open_proposal_submission : Bool
deriving DecidableEq, Repr

/-- Field-by-field conversion of a legacy deposit record into the current
shape, as performed inline by `migrate` (execute.rs lines 633-645). -/
def CheckedDepositInfoV241.into_current (old : CheckedDepositInfoV241) :
    CheckedDepositInfo :=
  { denom :=
      match old.denom with
      | .Cw20 address => CheckedDenom.Cw20 address
      | .Native denom => CheckedDenom.Native denom
    amount := old.amount
    refund_policy :=
      match old.refund_policy with
      | .Always => DepositRefundPolicy.Always
      | .Never => DepositRefundPolicy.Never
      | .OnlyPassed => DepositRefundPolicy.OnlyPassed }

/-- The crate version written by `set_contract_version`
(`env!("CARGO_PKG_VERSION")`; the manifest is not among the provided
sources, and no claim depends on the exact value). -/
def CONTRACT_VERSION : String := "2.7.0"

/-- Outcome of `migrate`: success with the new state, an error value, or a
Rust panic (the handler calls `.unwrap()` on the version parse). -/
inductive MigrateOutcome where
  | ok (st : ContractState)
  | err (e : PreProposeError)
  | panics (msg : String)
deriving DecidableEq, Repr

/-- Direct translation of the `MigrateMsg::FromUnderV250` arm of `migrate`
(execute.rs lines 540-661).  The stored contract version string is parsed
with `.unwrap()` — an unparseable version is a panic, not an error.  An
out-of-range version is the `CannotMigrateVersion` error.  Otherwise the
legacy `"config"` item (passed in as `old_config`, the V241 shape the raw
storage deserializes to) is converted: a supplied `policy` wins, else
`open_proposal_submission` true becomes `Anyone` with an empty denylist
and false becomes `Specific` with `dao_members` true and empty lists; the
policy must validate; legacy deposit info maps across field by field; the
cw2 version is bumped to the crate version. -/
def migrate (st : ContractState) (policy : Option PreProposeSubmissionPolicy)
    (old_config : ConfigV241) : MigrateOutcome :=
  let required_str := ">=2.4.1, <2.5.0"
  match parseSemVersion st.contract_version with
  | none => .panics "called Option.unwrap on a None value"
  | some sem_version =>
      if !reqMatchesUnderV250 sem_version then
        .err (.CannotMigrateVersion required_str st.contract_version)
      else
        let submission_policy :=
          match policy with
          | some submission_policy => submission_policy
          | none =>
              if old_config.open_proposal_submission then
                PreProposeSubmissionPolicy.Anyone []
              else
                PreProposeSubmissionPolicy.Specific true [] []
        match submission_policy.validate with
        | .error e => .err e
        | .ok _ =>
            let deposit_info : Option CheckedDepositInfo :=
              old_config.deposit_info.map CheckedDepositInfoV241.into_current
            .ok { st with
                    config :=
                      { deposit_info := deposit_info
                        submission_policy := submission_policy }
                    contract_version := CONTRACT_VERSION }

/-- Decidable equality for `Except`, so concrete handler results can be
checked by `decide`. -/
instance exceptDecidableEq {ε α : Type} [DecidableEq ε] [DecidableEq α] :
    DecidableEq (Except ε α) := fun x y =>
  match x, y with
  | .ok a, .ok b =>
      if h : a = b then .isTrue (by rw [h])
      else .isFalse (fun hh => h (Except.ok.inj hh))
  | .error a, .error b =>
      if h : a = b then .isTrue (by rw [h])
      else .isFalse (fun hh => h (Except.error.inj hh))
  | .ok _, .error _ => .isFalse (fun hh => Except.noConfusion hh)
  | .error _, .ok _ => .isFalse (fun hh => Except.noConfusion hh)

/-! ### Concrete fixtures used by witnesses and counterexamples -/

/-- A 100-unit native-denom deposit requirement with the `OnlyPassed`
refund policy. -/
def exDeposit : CheckedDepositInfo :=
  { denom := .Native "x", amount := 100, refund_policy := .OnlyPassed }

/-- A concrete contract state: proposal module `propmod`, DAO `dao`, an
open submission policy, a deposit requirement, one stored deposit record
for proposal 1 by `alice`, and two hook subscribers. -/
def exSt : ContractState :=
  { proposal_module := "propmod"
    dao := "dao"
    config := { deposit_info := some exDeposit, submission_policy := .Anyone [] }
    deposits := [(1, (some exDeposit, "alice"))]
    proposal_submitted_hooks := ["hookone", "hooktwo"]
    contract_version := "2.4.5" }

/-- A message sent by the proposal module with no funds attached. -/
def exModuleInfo : MessageInfo :=
  { sender := "propmod", funds := [] }

/-- A message sent by the DAO with no funds attached. -/
def exDaoInfo : MessageInfo :=
  { sender := "dao", funds := [] }

/-- A voting-power oracle that reports zero power for everyone. -/
def zeroOracle : VotingPowerOracle := fun _ => .ok 0

/-! ### Theorems for the claims -/

/-- C3: the authorization check follows exactly the spec's evaluation
order.  For every state, total voting-power oracle and address,
`check_can_submit` succeeds exactly when the spec's rule
(`authorizedSpec`) authorizes the address — `Anyone` authorizes unless
denylisted; under `Specific`, denylist membership is decisive, then
allowlist membership authorizes, then `dao_members` requires strictly
positive voting power, else unauthorized — and every refusal is the
`Unauthorized` submission-policy error. -/
theorem check_can_submit_follows_spec_order (st : ContractState)
    (power : Addr → Nat) (who : Addr) :
    check_can_submit st (fun a => .ok (power a)) who =
      (if authorizedSpec st.config.submission_policy power who then
        .ok ()
      else
        .error (.SubmissionPolicy .Unauthorized)) := by
  unfold check_can_submit authorizedSpec
  cases st.config.submission_policy with
  | Anyone denylist =>
      by_cases h : who ∈ denylist <;> simp [h]
  | Specific dao_members allowlist denylist =>
      by_cases hd : who ∈ denylist <;>
        by_cases ha : who ∈ allowlist <;>
          cases dao_members <;>
            by_cases hp : power who = 0 <;>
              simp [hd, ha, hp, Nat.pos_iff_ne_zero]

/-- C4: the `CanPropose` query and the `Propose` authorization check agree.
For every state, oracle and address: the query answers `true` exactly when
`check_can_submit` succeeds, answers `false` exactly when it fails with the
`Unauthorized` submission-policy error, and turns every other error kind
from that same check into an error of its own (a `Std` error verbatim,
anything else as a generic error) rather than a boolean. -/
theorem can_propose_agrees_with_submit_check (st : ContractState)
    (vp : VotingPowerOracle) (address : Addr) :
    (query_can_propose st vp address = .ok true ↔
      check_can_submit st vp address = .ok ()) ∧
    (query_can_propose st vp address = .ok false ↔
      check_can_submit st vp address
        = .error (.SubmissionPolicy .Unauthorized)) ∧
    (∀ e, check_can_submit st vp address = .error e →
      e ≠ .SubmissionPolicy .Unauthorized →
      ∃ s, query_can_propose st vp address = .error s) := by
  unfold query_can_propose
  split
  · rename_i u heq
    cases u
    simp [heq]
  · rename_i err heq
    split
    · simp [heq]
    · rename_i e
      simp [heq]
    · rename_i h1 h2
      simp [heq]
      exact h1

/-- C4 witness: at the concrete state `exSt` (open submission policy) and
address `alice`, the query answers `true` and the check succeeds. -/
theorem can_propose_agrees_with_submit_check_witness :
    query_can_propose exSt zeroOracle "alice" = .ok true ∧
    check_can_submit exSt zeroOracle "alice" = .ok () := by
  have h := can_propose_agrees_with_submit_check exSt zeroOracle "alice"
  exact ⟨by decide, h.1.mp (by decide)⟩

/-- C2: for every stored deposit record carrying deposit info and every
terminal status, `execute_proposal_completed_hook` (called by the proposal
module) returns exactly the deposit-return messages addressed to the
recipient given by the spec's refund table: `Always` refunds the proposer,
`OnlyPassed` refunds the proposer only on `Executed` and otherwise pays the
DAO, `Never` pays the DAO. -/
theorem completed_hook_sends_deposit_per_refund_table (st : ContractState)
    (info : MessageInfo) (id : Nat) (s : Status) (di : CheckedDepositInfo)
    (proposer : Addr)
    (hsender : info.sender = st.proposal_module)
    (hterm : s = Status.Closed ∨ s = Status.Executed ∨ s = Status.Vetoed)
    (hrec : mapLoad st.deposits id = some (some di, proposer)) :
    execute_proposal_completed_hook st info id s =
      .ok (di.get_return_deposit_message
        (refundTableRecipient di.refund_policy s proposer st.dao)) := by
  unfold execute_proposal_completed_hook refundTableRecipient
  rcases hterm with h | h | h <;>
    subst h <;>
      cases hp : di.refund_policy <;>
        simp [hsender, hrec, hp]

/-- C2 witness: at the concrete state `exSt` (record for proposal 1 by
`alice`, 100 of native denom `x`, `OnlyPassed`), resolving `Closed` sends
the deposit to the DAO and resolving `Executed` sends it to the proposer. -/
theorem completed_hook_sends_deposit_per_refund_table_witness :
    execute_proposal_completed_hook exSt exModuleInfo 1 Status.Closed
        = .ok [OutMsg.BankSend "dao" "x" 100] ∧
    execute_proposal_completed_hook exSt exModuleInfo 1 Status.Executed
        = .ok [OutMsg.BankSend "alice" "x" 100] := by
  have hc := completed_hook_sends_deposit_per_refund_table exSt exModuleInfo 1
    Status.Closed exDeposit "alice" (by decide) (Or.inl rfl) (by decide)
  have he := completed_hook_sends_deposit_per_refund_table exSt exModuleInfo 1
    Status.Executed exDeposit "alice" (by decide) (Or.inr (Or.inl rfl)) (by decide)
  refine ⟨?_, ?_⟩
  · rw [hc]; decide
  · rw [he]; decide

/-- C1 counterexample: deposit resolution is not exactly-once.  At the
concrete state `exSt` the proposal module resolves proposal 1 as `Closed`;
the invocation succeeds, emits the 100-unit deposit transfer, and leaves
the contract state (in particular the deposit record) exactly as it was —
so the second invocation, which is the very same call on the returned
state, emits the same deposit transfer message again instead of none. -/
theorem completed_hook_double_resolution_counterexample :
    completed_hook_step exSt exModuleInfo 1 Status.Closed
        = .ok (exSt, [OutMsg.BankSend "dao" "x" 100]) ∧
    completed_hook_step exSt exModuleInfo 1 Status.Closed
        ≠ .ok (exSt, []) := by
  constructor
  · decide
  · decide

/-- C1 amended: the module itself does not guard against double
resolution.  A successful `ProposalCompletedHook` invocation leaves the
contract state unchanged (the handler only reads storage), so a second
invocation for the same id with the same terminal status succeeds again
with exactly the same deposit transfer messages; exactly-once delivery is
the proposal module's obligation, not enforced here. -/
theorem completed_hook_resolution_repeats (st : ContractState)
    (info : MessageInfo) (id : Nat) (s : Status) (st1 : ContractState)
    (msgs : List OutMsg)
    (h : completed_hook_step st info id s = .ok (st1, msgs)) :
    st1 = st ∧ completed_hook_step st1 info id s = .ok (st1, msgs) := by
  unfold completed_hook_step at h ⊢
  rcases hh : execute_proposal_completed_hook st info id s with e | v
  · rw [hh] at h
    cases h
  · rw [hh] at h
    cases h
    exact ⟨rfl, by rw [hh]; rfl⟩

/-- C1 amended witness: the amended theorem applied at the concrete double
invocation of `exSt`'s proposal 1. -/
theorem completed_hook_resolution_repeats_witness :
    exSt = exSt ∧
    completed_hook_step exSt exModuleInfo 1 Status.Closed
        = .ok (exSt, [OutMsg.BankSend "dao" "x" 100]) :=
  completed_hook_resolution_repeats exSt exModuleInfo 1 Status.Closed exSt
    [OutMsg.BankSend "dao" "x" 100] (by decide)

/-- A concrete state with no deposit requirement and a pre-existing deposit
record for proposal 7 by `bob`. -/
def exStPrior : ContractState :=
  { proposal_module := "propmod"
    dao := "dao"
    config := { deposit_info := none, submission_policy := .Anyone [] }
    deposits := [(7, (none, "bob"))]
    proposal_submitted_hooks := []
    contract_version := "2.4.5" }

/-- Saving under a key makes the saved value the one that is loaded. -/
theorem mapLoad_mapSave {V : Type} (m : List (Nat × V)) (k : Nat) (v : V) :
    mapLoad (mapSave m k v) k = some v := by
  simp [mapLoad, mapSave]

/-- C5 counterexample: the deposit record written by submit is not guarded
against id reuse.  At the concrete state `exStPrior`, proposal id 7
already has a record by `bob`, yet a submit whose next-proposal-id query
answers 7 succeeds and silently replaces it with `alicia`'s record instead
of treating the collision as an invariant violation. -/
theorem execute_propose_overwrite_counterexample :
    mapLoad exStPrior.deposits 7 = some (none, "bob") ∧
    execute_propose exStPrior zeroOracle 7 { contract_address := "me" }
        { sender := "alicia", funds := [] } "PMSG"
      = .ok ({ exStPrior with deposits := [(7, (none, "alicia"))] },
             [OutMsg.Execute "propmod" "PMSG"]) := by
  constructor
  · decide
  · decide

/-- C5 amended: submit stores the deposit association under the queried
next proposal id unconditionally — `Map::save` is insert-or-overwrite, so
any pre-existing record for that id is silently replaced rather than
rejected.  For every successful submit, the post-state's record at
`next_id` is the current deposit config and the sender, whatever was there
before. -/
theorem execute_propose_records_unconditionally (st : ContractState)
    (vp : VotingPowerOracle) (next_id : Nat) (env : Env) (info : MessageInfo)
    (msg : String) (st' : ContractState) (msgs : List OutMsg)
    (h : execute_propose st vp next_id env info msg = .ok (st', msgs)) :
    mapLoad st'.deposits next_id = some (st.config.deposit_info, info.sender) := by
  unfold execute_propose at h
  rcases hc : check_can_submit st vp info.sender with e | u
  · rw [hc] at h
    simp only [Except.map, Except.bind, bind] at h
    cases h
  · rw [hc] at h
    rcases hd : st.config.deposit_info with _ | di
    · simp only [hd, Except.map, Except.bind, bind, pure] at h
      cases h
      exact mapLoad_mapSave _ _ _
    · simp only [hd, Except.map, Except.bind, bind, pure] at h
      rcases hp : di.check_native_deposit_paid info with e' | u'
      · rw [hp] at h
        simp only [Except.bind, bind] at h
        cases h
      · rw [hp] at h
        simp only [Except.bind, bind, pure] at h
        cases h
        exact mapLoad_mapSave _ _ _

/-- C5 amended witness: the amended theorem applied at the concrete
overwriting submit on `exStPrior`. -/
theorem execute_propose_records_unconditionally_witness :
    mapLoad ({ exStPrior with deposits := [(7, (none, "alicia"))] } :
        ContractState).deposits 7 = some (exStPrior.config.deposit_info, "alicia") :=
  execute_propose_records_unconditionally exStPrior zeroOracle 7
    { contract_address := "me" } { sender := "alicia", funds := [] } "PMSG"
    { exStPrior with deposits := [(7, (none, "alicia"))] }
    [OutMsg.Execute "propmod" "PMSG"] (by decide)

/-- C8: outbound message order of a successful submit.  The batch is the
proposal-creation message to the proposal module first, then one hook
notification per subscriber in registration order, then the deposit
take messages; and the deposit record is already stored in the post-state
that the messages are dispatched against (storage writes commit before the
response's messages are delivered). -/
theorem execute_propose_message_order (st : ContractState)
    (vp : VotingPowerOracle) (next_id : Nat) (env : Env) (info : MessageInfo)
    (msg : String) (st' : ContractState) (msgs : List OutMsg)
    (h : execute_propose st vp next_id env info msg = .ok (st', msgs)) :
    msgs = OutMsg.Execute st.proposal_module msg
        :: (st.proposal_submitted_hooks.map (fun a => OutMsg.Execute a msg)
            ++ (match st.config.deposit_info with
                | some di => di.get_take_deposit_messages info.sender env.contract_address
                | none => [])) ∧
    st'.deposits = mapSave st.deposits next_id (st.config.deposit_info, info.sender) := by
  unfold execute_propose at h
  rcases hc : check_can_submit st vp info.sender with e | u
  · rw [hc] at h
    simp only [Except.map, Except.bind, bind] at h
    cases h
  · rw [hc] at h
    rcases hd : st.config.deposit_info with _ | di
    · simp only [hd, Except.map, Except.bind, bind, pure] at h
      cases h
      simp [hd]
    · simp only [hd, Except.map, Except.bind, bind, pure] at h
      rcases hp : di.check_native_deposit_paid info with e' | u'
      · rw [hp] at h
        simp only [Except.bind, bind] at h
        cases h
      · rw [hp] at h
        simp only [Except.bind, bind, pure] at h
        cases h
        simp [hd]

/-- C8 witness: the ordering theorem applied at a concrete submit on
`exSt` (native deposit paid, two hook subscribers, next id 2): the batch
is the propose message, then the two hook messages, then the (empty,
native) deposit-take segment, and the record for id 2 is stored. -/
theorem execute_propose_message_order_witness :
    [OutMsg.Execute "propmod" "PMSG", OutMsg.Execute "hookone" "PMSG",
        OutMsg.Execute "hooktwo" "PMSG"]
      = OutMsg.Execute exSt.proposal_module "PMSG"
          :: (exSt.proposal_submitted_hooks.map (fun a => OutMsg.Execute a "PMSG")
              ++ (match exSt.config.deposit_info with
                  | some di => di.get_take_deposit_messages "alice" "me"
                  | none => [])) ∧
    ({ exSt with deposits := (2, (some exDeposit, "alice")) :: exSt.deposits } :
        ContractState).deposits
      = mapSave exSt.deposits 2 (exSt.config.deposit_info, "alice") :=
  execute_propose_message_order exSt zeroOracle 2 { contract_address := "me" }
    { sender := "alice", funds := [("x", 100)] } "PMSG"
    { exSt with deposits := (2, (some exDeposit, "alice")) :: exSt.deposits }
    [OutMsg.Execute "propmod" "PMSG", OutMsg.Execute "hookone" "PMSG",
     OutMsg.Execute "hooktwo" "PMSG"] (by decide)

/-- The state `exSt` after an `UpdateConfig` that clears the deposit
requirement and leaves the submission policy alone. -/
def exStCleared : ContractState :=
  { exSt with
      config :=
        { deposit_info := none
          submission_policy := exSt.config.submission_policy } }

/-- C9: frame effect of `UpdateConfig`.  On every successful call the
stored deposit info is replaced by the call's argument — a `none` argument
clears any stored deposit requirement — while a `none` submission-policy
argument leaves the stored policy unchanged (and a provided one replaces
it). -/
theorem update_config_replaces_deposit_keeps_policy (st : ContractState)
    (info : MessageInfo) (deposit_info : Option UncheckedDepositInfo)
    (submission_policy : Option PreProposeSubmissionPolicy)
    (st' : ContractState) (msgs : List OutMsg)
    (h : execute_update_config st info deposit_info submission_policy
      = .ok (st', msgs)) :
    (deposit_info = none → st'.config.deposit_info = none) ∧
    (∀ d, deposit_info = some d →
      ∃ c, d.into_checked st.dao = .ok c ∧ st'.config.deposit_info = some c) ∧
    st'.config.submission_policy
      = submission_policy.getD st.config.submission_policy := by
  unfold execute_update_config at h
  by_cases hs : info.sender = st.dao
  · have hb : (info.sender != st.dao) = false := by simp [hs]
    simp only [hb, Bool.false_eq_true, if_false] at h
    rcases deposit_info with _ | d
    · rcases submission_policy with _ | p
      · simp only [Except.map, Except.bind, bind, pure] at h
        cases h
        refine ⟨fun _ => rfl, ?_, rfl⟩
        intro d hd'
        simp at hd'
      · rcases hv : p.validate with e | u
        · simp only [hv, Except.map, Except.bind, bind, pure] at h
          cases h
        · simp only [hv, Except.map, Except.bind, bind, pure] at h
          cases h
          refine ⟨fun _ => rfl, ?_, rfl⟩
          intro d hd'
          simp at hd'
    · rcases hc : d.into_checked st.dao with e | c
      · simp only [hc, Except.map, Except.bind, bind, pure] at h
        cases h
      · rcases submission_policy with _ | p
        · simp only [hc, Except.map, Except.bind, bind, pure] at h
          cases h
          refine ⟨?_, ?_, rfl⟩
          · intro hh
            simp at hh
          · intro d' hd'
            injection hd' with hdd
            subst hdd
            exact ⟨c, hc, rfl⟩
        · rcases hv : p.validate with e | u
          · simp only [hc, hv, Except.map, Except.bind, bind, pure] at h
            cases h
          · simp only [hc, hv, Except.map, Except.bind, bind, pure] at h
            cases h
            refine ⟨?_, ?_, rfl⟩
            · intro hh
              simp at hh
            · intro d' hd'
              injection hd' with hdd
              subst hdd
              exact ⟨c, hc, rfl⟩
  · have hb : (info.sender != st.dao) = true := by simp [bne_iff_ne, hs]
    simp only [hb, if_true] at h
    cases h

/-- C9 witness: the frame theorem applied at a concrete `UpdateConfig` by
the DAO on `exSt` (which has a stored deposit requirement) with a `none`
deposit argument and no policy argument: the deposit requirement is
cleared and the policy is preserved. -/
theorem update_config_replaces_deposit_keeps_policy_witness :
    exStCleared.config.deposit_info = none ∧
    exStCleared.config.submission_policy = exSt.config.submission_policy := by
  have h := update_config_replaces_deposit_keeps_policy exSt exDaoInfo none none
    exStCleared [] (by decide)
  exact ⟨h.1 rfl, h.2.2⟩

/-- C6: cross-variant fields are rejected.  For every
`UpdateSubmissionPolicy` call by the DAO while the stored policy is
`Anyone`, the presence of any `Specific`-only field (`set_dao_members`,
`allowlist_add`, `allowlist_remove`) fails with the
`AnyoneInvalidUpdateFields` configuration error; the error result means
nothing is saved, so the stored config is unchanged (all-or-nothing
rollback). -/
theorem update_submission_policy_anyone_rejects_specific_fields
    (st : ContractState) (info : MessageInfo)
    (denylist_add denylist_remove : Option (List Addr))
    (set_dao_members : Option Bool)
    (allowlist_add allowlist_remove : Option (List Addr))
    (denylist : List Addr)
    (hpol : st.config.submission_policy = .Anyone denylist)
    (hsender : info.sender = st.dao)
    (hfields : set_dao_members ≠ none ∨ allowlist_add ≠ none
      ∨ allowlist_remove ≠ none) :
    execute_update_submission_policy st info denylist_add denylist_remove
        set_dao_members allowlist_add allowlist_remove
      = .error (.SubmissionPolicy .AnyoneInvalidUpdateFields) := by
  unfold execute_update_submission_policy
  have hcond : (set_dao_members.isSome || allowlist_add.isSome
      || allowlist_remove.isSome) = true := by
    rcases hfields with hf | hf | hf <;>
      simp [Option.isSome_iff_ne_none, hf]
  simp only [hsender, bne_self_eq_false, Bool.false_eq_true, if_false, hpol,
    hcond, if_true, Except.bind, bind]

/-- C6 witness: the rejection theorem applied at the concrete state `exSt`
(whose policy is `Anyone`) with a `set_dao_members` field present. -/
theorem update_submission_policy_anyone_rejects_specific_fields_witness :
    execute_update_submission_policy exSt exDaoInfo none none (some true)
        none none
      = .error (.SubmissionPolicy .AnyoneInvalidUpdateFields) :=
  update_submission_policy_anyone_rejects_specific_fields exSt exDaoInfo
    none none (some true) none none [] (by decide) (by decide)
    (Or.inl (by decide))

/-- C7: the migration version gate and legacy-flag conversion.  For every
state whose stored contract version parses: with any supplied policy,
migration fails with `CannotMigrateVersion` exactly when the parsed
version does not match the range greater-equal 2.4.1, less-than 2.5.0;
and when the version matches and no replacement policy is supplied, it
succeeds and converts a legacy `open_proposal_submission` of `true` into
`Anyone` with an empty denylist and `false` into `Specific` with
`dao_members` true and empty allowlist and denylist (with the legacy
deposit info carried over field by field). -/
theorem migrate_version_gate_and_conversion (st : ContractState)
    (old_config : ConfigV241) (v : SemVersion)
    (hparse : parseSemVersion st.contract_version = some v) :
    (∀ policy, reqMatchesUnderV250 v = false →
      migrate st policy old_config
        = .err (.CannotMigrateVersion ">=2.4.1, <2.5.0" st.contract_version)) ∧
    (reqMatchesUnderV250 v = true →
      migrate st none old_config
        = .ok { st with
                  config :=
                    { deposit_info :=
                        old_config.deposit_info.map CheckedDepositInfoV241.into_current
                      submission_policy :=
                        if old_config.open_proposal_submission then
                          PreProposeSubmissionPolicy.Anyone []
                        else
                          PreProposeSubmissionPolicy.Specific true [] [] }
                  contract_version := CONTRACT_VERSION }) := by
  constructor
  · intro policy hm
    unfold migrate
    simp [hparse, hm]
  · intro hm
    unfold migrate
    rcases ho : old_config.open_proposal_submission with _ | _ <;>
      simp [hparse, hm, ho, PreProposeSubmissionPolicy.validate]

/-- C7 witness: the gate theorem applied at `exSt` (stored version
`2.4.5`, which parses and lies in the range) with no replacement policy
and a legacy config whose flag is `true`: migration succeeds and the
policy becomes `Anyone` with an empty denylist. -/
theorem migrate_version_gate_and_conversion_witness :
    migrate exSt none { deposit_info := none, open_proposal_submission := true }
      = .ok { exSt with
                config :=
                  { deposit_info := none
                    submission_policy := PreProposeSubmissionPolicy.Anyone [] }
                contract_version := CONTRACT_VERSION } := by
  have h := (migrate_version_gate_and_conversion exSt
    { deposit_info := none, open_proposal_submission := true }
    ⟨2, 4, 5, []⟩ (by decide)).2 (by decide)
  rw [h]
  rfl

/-- C10: migration only returns the `CannotMigrateVersion` error value
when the stored contract-version string parses as a semantic version; on
every unparseable stored version the `.unwrap()` on the parse aborts with
a panic instead of returning an error. -/
theorem migrate_panics_on_unparseable_version (st : ContractState)
    (policy : Option PreProposeSubmissionPolicy) (old_config : ConfigV241) :
    (parseSemVersion st.contract_version = none →
      migrate st policy old_config
        = .panics "called Option.unwrap on a None value") ∧
    (∀ r a, migrate st policy old_config = .err (.CannotMigrateVersion r a) →
      parseSemVersion st.contract_version ≠ none) := by
  constructor
  · intro hp
    unfold migrate
    simp [hp]
  · intro r a hm hp
    unfold migrate at hm
    simp [hp] at hm

/-- C10 witness: the panic theorem applied at a state whose stored version
string `not-a-version` is not valid semver: migration panics. -/
theorem migrate_panics_on_unparseable_version_witness :
    parseSemVersion "not-a-version" = none ∧
    migrate { exSt with contract_version := "not-a-version" } none
        { deposit_info := none, open_proposal_submission := true }
      = .panics "called Option.unwrap on a None value" :=
  ⟨by decide,
    (migrate_panics_on_unparseable_version
      { exSt with contract_version := "not-a-version" } none
      { deposit_info := none, open_proposal_submission := true }).1 (by decide)⟩

end DaoPreProposeBase
